import Mathlib

set_option linter.unusedVariables false

/-!
Verification of the CNC predictive-maintenance chat client
(ttpunch/AgentProject, frontend sources) against its natural-language
specification.  The definitions below are a shallow embedding of the
JavaScript source: React state updates become pure functions on explicit
state records, the NDJSON stream reader becomes a fold over chunks, and
JavaScript numbers become rationals where thresholds matter.
-/

namespace AgentProject

/-- A point of a chart payload (`chart_data` entries carry a timestamp and
numeric sensor values). -/
structure ChartPoint where
  timestamp : Nat
  value : Int
  deriving DecidableEq

/-- A chat message as held in React state in `ChatPage.jsx` / the
`AgentChat` component: role (`user` / `agent` / `system`), textual content,
the transient `streaming` flag used while `token` events arrive, and the
optional chart payload fields. -/
structure Message where
  role : String
  content : String
  streaming : Bool := false
  chart_data : Option (List ChartPoint) := none
  chart_type : Option String := none
  deriving DecidableEq

/-- The default greeting message installed by `useState`, `handleResetChat`,
`createNewThread` and the empty branch of `loadThread` in `ChatPage.jsx`. -/
def defaultGreeting : Message :=
  { role := "agent"
    content := "Hello! I am your AI Data Assistant. I can help you analyze machine performance, query databases, and troubleshoot anomalies." }

/-- The client-side chat state touched by the `handleSubmit` stream loop:
the message list, the status line and the loading flag. -/
structure ClientState where
  messages : List Message
  status : String
  loading : Bool
  deriving DecidableEq

/-- A parsed line of the newline-delimited JSON stream
(`JSON.parse(line)` in `handleSubmit`): a `type` tag plus the fields the
client reads from it. -/
structure StreamData where
  type : String
  content : String := ""
  chart_data : Option (List ChartPoint) := none
  chart_type : Option String := none
  deriving DecidableEq

/-- The `prev[prev.length - 1]` check of the `token` branch: the last
message exists, has role `agent` and its `streaming` flag set. -/
def lastIsStreamingAgent (msgs : List Message) : Bool :=
  match msgs.getLast? with
  | some m => m.role == "agent" && m.streaming
  | none => false

/-- The `setMessages` updater of the `token` branch of `handleSubmit`
(ChatPage.jsx lines 219-234): append the token to the last message when it
is a streaming agent message, otherwise start a new streaming message. -/
def tokenUpdate (tok : String) (prev : List Message) : List Message :=
  match prev.getLast? with
  | some lastMsg =>
      if lastMsg.role == "agent" && lastMsg.streaming then
        prev.dropLast ++ [{ lastMsg with content := lastMsg.content ++ tok }]
      else
        prev ++ [{ role := "agent", content := tok, streaming := true }]
  | none => prev ++ [{ role := "agent", content := tok, streaming := true }]

/-- The `setMessages` updater of the `answer_end` branch of `handleSubmit`
(ChatPage.jsx lines 235-247): clear the `streaming` flag of the last
message when set, otherwise leave the list unchanged. -/
def answerEndUpdate (prev : List Message) : List Message :=
  match prev.getLast? with
  | some lastMsg =>
      if lastMsg.streaming then
        prev.dropLast ++ [{ lastMsg with streaming := false }]
      else prev
  | none => prev

/-- The event dispatch of the `handleSubmit` stream loop
(ChatPage.jsx lines 215-258): one branch per protocol event type, any
other type falls through every branch and changes nothing. -/
def processData (d : StreamData) (s : ClientState) : ClientState :=
  if d.type == "status" then
    { s with status := d.content }
  else if d.type == "log" then
    s
  else if d.type == "token" then
    { s with messages := tokenUpdate d.content s.messages, status := "" }
  else if d.type == "answer_end" then
    { s with messages := answerEndUpdate s.messages, status := "" }
  else if d.type == "answer" then
    { s with
      messages := s.messages ++
        [{ role := "agent", content := d.content, chart_data := d.chart_data }]
      status := "" }
  else if d.type == "error" then
    { s with
      messages := s.messages ++
        [{ role := "agent", content := "Error: " ++ d.content }]
      status := "" }
  else s

/-- The message appended by the `catch` block of `handleSubmit`
(ChatPage.jsx line 266) on a connection/HTTP failure. -/
def connectionFailureMessage : Message :=
  { role := "agent", content := "Sorry, connection failed. Please try again." }

/-- The `catch` block of `handleSubmit` (ChatPage.jsx lines 264-267). -/
def handleCatch (s : ClientState) : ClientState :=
  { s with messages := s.messages ++ [connectionFailureMessage], status := "" }

/-- The `finally` block of `handleSubmit` (ChatPage.jsx lines 268-273):
clear the loading flag and the status line. -/
def handleFinally (s : ClientState) : ClientState :=
  { s with loading := false, status := "" }

/-- Processing a run of `token` events: fold of the `token` branch. -/
def processTokens (ts : List String) (s : ClientState) : ClientState :=
  ts.foldl (fun st t => processData { type := "token", content := t } st) s

/-- Concatenation of a list of strings, in order. -/
def joinAll : List String → String
  | [] => ""
  | t :: ts => t ++ joinAll ts

/- ------------------------------------------------------------------
Machine card status (MachineCard.jsx lines 19-25).
------------------------------------------------------------------ -/

/-- One record of the metrics response consumed by `MachineCard`. -/
structure MetricRecord where
  timestamp : Nat
  vibration : ℚ
  temperature : ℚ
  deriving DecidableEq

/-- The initial value of the `status` state in `MachineCard.jsx`
(`useState('running')`). -/
def initialCardStatus : String := "running"

/-- The status update of `MachineCard.jsx` lines 19-25: read the latest
record (`response.data[response.data.length - 1]`) and classify by its
vibration value; an empty response leaves the previous status in place. -/
def determineStatus (data : List MetricRecord) (prevStatus : String) : String :=
  match data.getLast? with
  | some latest =>
      if latest.vibration > 1 then "error"
      else if latest.vibration > 8/10 then "warning"
      else "running"
  | none => prevStatus

/- ------------------------------------------------------------------
Router (spec §4.1).  The Router is backend code that is not present under
the provided sources (only the frontend is), so it is modelled from the
specification's decision policy.
------------------------------------------------------------------ -/

/-- The routing decision variants of the spec's data model (§3). -/
inductive RoutingDecision where
  | SQL
  | RETRIEVAL
  | HYBRID
  | CLARIFY
  deriving DecidableEq

/-- One prior turn of the conversation passed to the Router. -/
structure HistTurn where
  role : String
  content : String
  deriving DecidableEq

/-- Boolean list-containment of a pattern inside a list, by scanning. -/
def startsWithB : List Char → List Char → Bool
  | [], _ => true
  | _ :: _, [] => false
  | a :: as, b :: bs => a == b && startsWithB as bs

/-- Boolean substring test on character lists. -/
def hasSub : List Char → List Char → Bool
  | pat, [] => startsWithB pat []
  | pat, c :: cs => startsWithB pat (c :: cs) || hasSub pat cs

/-- ASCII lower-casing of one character. -/
def lowerChar (c : Char) : Char :=
  if 'A' ≤ c ∧ c ≤ 'Z' then Char.ofNat (c.toNat + 32) else c

/-- Case-insensitive substring test on strings. -/
def strContains (s pat : String) : Bool :=
  hasSub (pat.data.map lowerChar) (s.data.map lowerChar)

/-- Modelled from the spec: the aggregate/comparison/threshold phrases of
§4.1's decision policy ("which machines have…", "average", "count",
comparison language).  The Router source itself is not under the provided
sources. -/
def aggregateKeywords : List String :=
  ["which machines have", "average", "count", "above", "below"]

/-- Modelled from the spec: the procedural/how-to and manual-reference
phrases of §4.1's decision policy.  The Router source itself is not under
the provided sources. -/
def docRefKeywords : List String :=
  ["how do i", "how to", "manual", "procedure", "fix"]

/-- Presence of aggregate/comparison/threshold language in a question. -/
def hasAggregateLanguage (q : String) : Bool :=
  aggregateKeywords.any (fun k => strContains q k)

/-- Presence of document-reference / procedural language in a question. -/
def hasDocRefLanguage (q : String) : Bool :=
  docRefKeywords.any (fun k => strContains q k)

/-- Modelled from the spec: whether a machine entity is resolvable from
the question or the conversation history (§4.1: "inability to resolve
required entities (e.g., no machine identifier and none in history)
routes to CLARIFY"). -/
def mentionsMachine (q : String) (hist : List HistTurn) : Bool :=
  strContains q "machine" || hist.any (fun t => strContains t.content "machine")

/-- Modelled from the spec: the Router contract
`decide(question, chat_history, tool_descriptors) -> RoutingDecision`
(§4.1).  Both language signals present route to HYBRID, aggregate alone to
SQL, document-reference alone to RETRIEVAL, unresolvable entities to
CLARIFY, and ties break toward RETRIEVAL.  The Router source itself is not
under the provided sources. -/
def decide (question : String) (chat_history : List HistTurn)
    (tool_descriptors : List String) : RoutingDecision :=
  let agg := hasAggregateLanguage question
  let doc := hasDocRefLanguage question
  if agg && doc then .HYBRID
  else if agg then .SQL
  else if doc then .RETRIEVAL
  else if !(mentionsMachine question chat_history) then .CLARIFY
  else .RETRIEVAL

/- ------------------------------------------------------------------
Thread management (ChatPage.jsx lines 74-144, 157-170).
------------------------------------------------------------------ -/

/-- One entry of the client's thread list (`{thread_id, title}`). -/
structure Thread where
  thread_id : String
  title : String
  deriving DecidableEq

instance : Inhabited Thread := ⟨⟨"", ""⟩⟩

/-- One item of a thread-fetch response consumed by `loadThread`
(role, content, and `metadata?.chart_data`). -/
structure ThreadItem where
  role : String
  content : String
  metadata_chart_data : Option (List ChartPoint) := none
  deriving DecidableEq

/-- The message list installed by `loadThread` (ChatPage.jsx lines 82-93)
from a fetch response: map the items to messages when the response is
non-empty, otherwise show the single default greeting. -/
def loadThreadMessages (res : List ThreadItem) : List Message :=
  if res.length > 0 then
    res.map (fun item =>
      { role := item.role
        content := item.content
        chart_data := item.metadata_chart_data })
  else [defaultGreeting]

/-- The `setThreads` updater used by `createNewThread` (ChatPage.jsx
line 105) and by the auto-create path of `handleSubmit` (line 165):
`prev => [newThread, ...prev]`. -/
def addThread (newThread : Thread) (prev : List Thread) : List Thread :=
  newThread :: prev

/-- Newest-first ordering of a thread list relative to a creation-time
assignment: each thread was created no earlier than its successor. -/
def newestFirst (created : Thread → Nat) (l : List Thread) : Prop :=
  l.Chain' (fun a b => created b ≤ created a)

/-- The client state touched by `deleteThread`: the thread list, the
active thread id, and the chat state reset by `handleResetChat`. -/
structure ThreadsState where
  threads : List Thread
  activeThreadId : Option String
  messages : List Message
  status : String
  deriving DecidableEq

/-- The asynchronous follow-up action started by `deleteThread` after its
synchronous state updates: load another thread, reset the chat, or leave
the active thread alone. -/
inductive DeleteFollowUp where
  | loadOther (threadId : String)
  | resetChat
  | keepActive
  deriving DecidableEq

/-- The `deleteThread` handler (ChatPage.jsx lines 125-144): drop every thread whose
id equals the deleted one; when the deleted thread was active, load the
first remaining thread if any, otherwise clear the active id and reset
the chat to the greeting (`handleResetChat`, lines 66-71). -/
def deleteThreadUpdate (threadId : String) (s : ThreadsState) :
    ThreadsState × DeleteFollowUp :=
  let threads' := s.threads.filter (fun t => t.thread_id != threadId)
  if s.activeThreadId = some threadId then
    match threads' with
    | r :: _ => ({ s with threads := threads' }, .loadOther r.thread_id)
    | [] =>
        ({ s with
            threads := threads'
            activeThreadId := none
            messages := [defaultGreeting]
            status := "" },
          .resetChat)
  else ({ s with threads := threads' }, .keepActive)

/- ------------------------------------------------------------------
NDJSON stream reader (ChatPage.jsx lines 199-210): the per-chunk loop
`buffer += decoder.decode(value); const lines = buffer.split('\n');
buffer = lines.pop();` followed by processing each complete line.
------------------------------------------------------------------ -/

/-- The effect of `buffer.split('\n')` followed by `lines.pop()`: the
complete lines (everything up to the last newline, split at newlines) and
the trailing partial line kept as the new buffer. -/
def splitCB : List Char → List (List Char) × List Char
  | [] => ([], [])
  | c :: cs =>
      let r := splitCB cs
      if c = '\n' then ([] :: r.1, r.2)
      else
        match r.1 with
        | [] => ([], c :: r.2)
        | l :: ls => ((c :: l) :: ls, r.2)

/-- The NDJSON reader's loop state: the carried partial-line buffer and
the complete lines handed to the dispatcher so far, in order. -/
structure ReaderState where
  buffer : List Char
  out : List (List Char)
  deriving DecidableEq

/-- One iteration of the read loop (ChatPage.jsx lines 203-210): append
the chunk to the buffer, split off the complete lines, keep the trailing
partial line. -/
def readChunk (st : ReaderState) (chunk : List Char) : ReaderState :=
  { buffer := (splitCB (st.buffer ++ chunk)).2
    out := st.out ++ (splitCB (st.buffer ++ chunk)).1 }

/-- The whole read loop over a sequence of chunks, from the initial empty
buffer. -/
def readChunks (chunks : List (List Char)) : ReaderState :=
  chunks.foldl readChunk { buffer := [], out := [] }

/- ------------------------------------------------------------------
Chart rendering (AIReportModal.jsx AgentChat lines 532-541,
ChatPage.jsx lines 527-548).
------------------------------------------------------------------ -/

/-- The render condition of the anomaly chart in the `AgentChat` component
(`msg.chart_data && msg.chart_type === 'scatter_anomaly'`; a present chart
array is truthy even when empty). -/
def agentChatRendersAnomalyChart (m : Message) : Bool :=
  m.chart_data.isSome && (m.chart_type == some "scatter_anomaly")

/-- The render condition of the forecast chart in the `AgentChat`
component (`msg.chart_data && msg.chart_type === 'forecast'`). -/
def agentChatRendersForecastChart (m : Message) : Bool :=
  m.chart_data.isSome && (m.chart_type == some "forecast")

/-- The render condition of the inline line chart in `ChatPage`
(`msg.chart_data && msg.chart_data.length > 0`): presence plus
non-emptiness of the chart data, with no look at `chart_type`. -/
def chatPageRendersChart (m : Message) : Bool :=
  match m.chart_data with
  | some l => Decidable.decide (l.length > 0)
  | none => false

/-- Modelled from the spec: the backend Conversation Store's thread-create
operation (the FastAPI backend is not under the provided sources).  Create
registers a fresh thread with an empty ordered message sequence (§3, §6). -/
def createThreadStore (tid : String)
    (store : List (String × List ThreadItem)) :
    List (String × List ThreadItem) :=
  (tid, []) :: store

/-- Modelled from the spec: the backend Conversation Store's fetch-by-id
operation (the FastAPI backend is not under the provided sources).  Fetch
returns the thread's ordered message sequence, `none` for an unknown id. -/
def fetchThreadStore (tid : String)
    (store : List (String × List ThreadItem)) :
    Option (List ThreadItem) :=
  (store.find? (fun p => p.1 == tid)).map Prod.snd

end AgentProject

namespace AgentProject

/-- C10: for a non-empty metrics response the card status is decided solely
by the latest record's vibration: `error` iff vibration > 1.0, `warning`
iff 0.8 < vibration ≤ 1.0, `running` otherwise; an empty response keeps
the previous status, whose initial value is `running`. -/
theorem machineCard_status_thresholds (data : List MetricRecord)
    (prev : String) (latest : MetricRecord)
    (hlast : data.getLast? = some latest) :
    (determineStatus data prev = "error" ↔ latest.vibration > 1)
    ∧ (determineStatus data prev = "warning" ↔
        (8/10 < latest.vibration ∧ latest.vibration ≤ 1))
    ∧ (determineStatus data prev = "running" ↔ latest.vibration ≤ 8/10)
    ∧ determineStatus [] prev = prev
    ∧ initialCardStatus = "running" := by
  have hs : determineStatus data prev =
      (if latest.vibration > 1 then "error"
       else if latest.vibration > 8/10 then "warning" else "running") := by
    unfold determineStatus
    rw [hlast]
  rw [hs]
  refine ⟨?_, ?_, ?_, rfl, rfl⟩
  · by_cases h1 : latest.vibration > 1
    · rw [if_pos h1]
      exact iff_of_true rfl h1
    · rw [if_neg h1]
      by_cases h2 : latest.vibration > 8/10
      · rw [if_pos h2]
        exact iff_of_false (by decide) h1
      · rw [if_neg h2]
        exact iff_of_false (by decide) h1
  · by_cases h1 : latest.vibration > 1
    · rw [if_pos h1]
      exact iff_of_false (by decide) (fun h => absurd h.2 (not_le.mpr h1))
    · rw [if_neg h1]
      by_cases h2 : latest.vibration > 8/10
      · rw [if_pos h2]
        exact iff_of_true rfl ⟨h2, not_lt.mp h1⟩
      · rw [if_neg h2]
        exact iff_of_false (by decide) (fun h => absurd h.1 h2)
  · by_cases h1 : latest.vibration > 1
    · rw [if_pos h1]
      refine iff_of_false (by decide) (not_le.mpr ?_)
      calc (8:ℚ)/10 < 1 := by norm_num
        _ < latest.vibration := h1
    · rw [if_neg h1]
      by_cases h2 : latest.vibration > 8/10
      · rw [if_pos h2]
        exact iff_of_false (by decide) (not_le.mpr h2)
      · rw [if_neg h2]
        exact iff_of_true rfl (not_lt.mp h2)

/-- Witness for C10 at a concrete one-record response with vibration 9/10. -/
theorem machineCard_status_thresholds_witness :
    (determineStatus [⟨0, 9/10, 40⟩] "running" = "error" ↔ (9:ℚ)/10 > 1)
    ∧ (determineStatus [⟨0, 9/10, 40⟩] "running" = "warning" ↔
        ((8:ℚ)/10 < 9/10 ∧ (9:ℚ)/10 ≤ 1))
    ∧ (determineStatus [⟨0, 9/10, 40⟩] "running" = "running" ↔ (9:ℚ)/10 ≤ 8/10)
    ∧ determineStatus [] "running" = "running"
    ∧ initialCardStatus = "running" :=
  machineCard_status_thresholds [⟨0, 9/10, 40⟩] "running" ⟨0, 9/10, 40⟩ rfl

/-- C4: a routing input whose question contains aggregate/comparison
language and no document-reference language is decided as SQL. -/
theorem router_decide_sql (q : String) (hist : List HistTurn)
    (tools : List String)
    (hagg : hasAggregateLanguage q = true)
    (hdoc : hasDocRefLanguage q = false) :
    decide q hist tools = RoutingDecision.SQL := by
  unfold decide
  simp [hagg, hdoc]

/-- Witness for C4 at the spec's scenario question. -/
theorem router_decide_sql_witness :
    decide "Which machines have vibration above 1.0?" [] [] =
      RoutingDecision.SQL :=
  router_decide_sql "Which machines have vibration above 1.0?" [] []
    (by decide) (by decide)

/-- C3: both failure paths of `handleSubmit` — a protocol `error` event and
a connection/HTTP failure caught by the `catch` block — append exactly one
agent message describing the cause, leave every prior message unchanged,
and after the `finally` block the loading flag is false and the status
text is empty. -/
theorem failure_single_message_state_clean (s : ClientState) (c : String) :
    (handleFinally (processData ⟨"error", c, none, none⟩ s)).messages
        = s.messages ++ [{ role := "agent", content := "Error: " ++ c }]
    ∧ (handleFinally (processData ⟨"error", c, none, none⟩ s)).loading = false
    ∧ (handleFinally (processData ⟨"error", c, none, none⟩ s)).status = ""
    ∧ (handleFinally (handleCatch s)).messages
        = s.messages ++ [connectionFailureMessage]
    ∧ (handleFinally (handleCatch s)).loading = false
    ∧ (handleFinally (handleCatch s)).status = "" :=
  ⟨rfl, rfl, rfl, rfl, rfl, rfl⟩

/-- C5: fetching a freshly created thread returns the empty message
sequence (never an error), and the client's `loadThread` turns an empty
fetch result into exactly the single default greeting and a non-empty
result into exactly the fetched messages with their roles, contents and
chart metadata. -/
theorem thread_create_fetch_loads (tid : String)
    (store : List (String × List ThreadItem)) (res : List ThreadItem)
    (hres : res ≠ []) :
    fetchThreadStore tid (createThreadStore tid store) = some []
    ∧ loadThreadMessages [] = [defaultGreeting]
    ∧ loadThreadMessages res = res.map (fun item =>
        { role := item.role
          content := item.content
          chart_data := item.metadata_chart_data }) := by
  refine ⟨?_, rfl, ?_⟩
  · simp [fetchThreadStore, createThreadStore]
  · unfold loadThreadMessages
    rw [if_pos]
    exact List.length_pos.mpr hres

/-- Witness for C5 at a concrete store and one-item fetch result. -/
theorem thread_create_fetch_loads_witness :
    fetchThreadStore "t1" (createThreadStore "t1" []) = some []
    ∧ loadThreadMessages [] = [defaultGreeting]
    ∧ loadThreadMessages [ThreadItem.mk "user" "hi" none] =
        ([ThreadItem.mk "user" "hi" none]).map (fun item =>
          { role := item.role
            content := item.content
            chart_data := item.metadata_chart_data }) :=
  thread_create_fetch_loads "t1" [] [ThreadItem.mk "user" "hi" none] (by decide)

/-- C6: both thread-creating client operations prepend the new thread to
the head of the list, leaving the relative order of all existing threads
unchanged; prepending a thread created no earlier than every existing one
preserves the newest-first ordering. -/
theorem addThread_prepends_newest_first (t : Thread) (prev : List Thread)
    (created : Thread → Nat)
    (hnew : ∀ u ∈ prev, created u ≤ created t)
    (hsorted : newestFirst created prev) :
    addThread t prev = t :: prev
    ∧ (addThread t prev).drop 1 = prev
    ∧ newestFirst created (addThread t prev) := by
  refine ⟨rfl, rfl, ?_⟩
  unfold newestFirst addThread
  rw [List.chain'_cons']
  exact ⟨fun b hb => hnew b (List.mem_of_mem_head? hb), hsorted⟩

/-- Witness for C6 at a concrete two-thread list. -/
theorem addThread_prepends_newest_first_witness :
    addThread ⟨"t2", "b"⟩ [⟨"t1", "a"⟩] = ⟨"t2", "b"⟩ :: [⟨"t1", "a"⟩]
    ∧ (addThread ⟨"t2", "b"⟩ [⟨"t1", "a"⟩]).drop 1 = [⟨"t1", "a"⟩]
    ∧ newestFirst (fun th => th.title.length)
        (addThread ⟨"t2", "b"⟩ [⟨"t1", "a"⟩]) :=
  addThread_prepends_newest_first ⟨"t2", "b"⟩ [⟨"t1", "a"⟩]
    (fun th => th.title.length)
    (by decide)
    (by simp [newestFirst])

/-- C7: `deleteThread` keeps exactly the threads whose id differs from the
deleted one, in their original order (a sublist of the old list); when the
deleted thread was active it either starts loading the first remaining
thread or, with none remaining, clears the active id and resets the chat
to the single greeting; a non-active deletion touches neither the active
id nor the messages. -/
theorem deleteThread_frame (t : String) (s : ThreadsState) :
    (deleteThreadUpdate t s).1.threads
        = s.threads.filter (fun th => th.thread_id != t)
    ∧ (deleteThreadUpdate t s).1.threads.Sublist s.threads
    ∧ (if s.activeThreadId = some t then
        (if (deleteThreadUpdate t s).1.threads = [] then
          (deleteThreadUpdate t s).1.activeThreadId = none
            ∧ (deleteThreadUpdate t s).1.messages = [defaultGreeting]
            ∧ (deleteThreadUpdate t s).1.status = ""
            ∧ (deleteThreadUpdate t s).2 = DeleteFollowUp.resetChat
        else
          (deleteThreadUpdate t s).2 =
              DeleteFollowUp.loadOther
                (deleteThreadUpdate t s).1.threads.headI.thread_id
            ∧ (deleteThreadUpdate t s).1.activeThreadId = s.activeThreadId
            ∧ (deleteThreadUpdate t s).1.messages = s.messages)
      else
        (deleteThreadUpdate t s).1.activeThreadId = s.activeThreadId
          ∧ (deleteThreadUpdate t s).1.messages = s.messages
          ∧ (deleteThreadUpdate t s).2 = DeleteFollowUp.keepActive) := by
  by_cases hact : s.activeThreadId = some t
  · cases hfil : s.threads.filter (fun th => th.thread_id != t) with
    | nil =>
        simp [deleteThreadUpdate, hact, hfil, List.filter_sublist]
    | cons r rest =>
        simp [deleteThreadUpdate, hact, hfil]
        exact hfil ▸ List.filter_sublist s.threads
  · simp [deleteThreadUpdate, hact, List.filter_sublist]

/-- The messages component of a `token`-event run is a fold of
`tokenUpdate` over the token contents. -/
lemma processTokens_messages (ts : List String) (s : ClientState) :
    (processTokens ts s).messages =
      ts.foldl (fun msgs t => tokenUpdate t msgs) s.messages := by
  induction ts generalizing s with
  | nil => rfl
  | cons t ts ih =>
      show (processTokens ts (processData ⟨"token", t, none, none⟩ s)).messages = _
      rw [ih]
      rfl

/-- When the list does not end in a streaming agent message, a `token`
event appends a fresh streaming agent message. -/
lemma tokenUpdate_fresh (t : String) (msgs : List Message)
    (h : lastIsStreamingAgent msgs = false) :
    tokenUpdate t msgs =
      msgs ++ [{ role := "agent", content := t, streaming := true }] := by
  cases hl : msgs.getLast? with
  | none => simp [tokenUpdate, hl]
  | some lastMsg =>
      simp only [lastIsStreamingAgent, hl] at h
      simp [tokenUpdate, hl, h]

/-- A run of `token` events over a list ending in a streaming agent
message extends that message's content by the concatenated tokens. -/
lemma tokenUpdate_fold_streaming (ts : List String) (pre : List Message)
    (m : Message) (hrole : m.role = "agent") (hs : m.streaming = true) :
    ts.foldl (fun msgs t => tokenUpdate t msgs) (pre ++ [m]) =
      pre ++ [{ m with content := m.content ++ joinAll ts }] := by
  induction ts generalizing m with
  | nil => simp [joinAll]
  | cons t ts ih =>
      have h1 : tokenUpdate t (pre ++ [m]) =
          pre ++ [{ m with content := m.content ++ t }] := by
        simp only [tokenUpdate, List.getLast?_concat]
        simp [hrole, hs, List.dropLast_concat]
      show List.foldl _ (tokenUpdate t (pre ++ [m])) ts = _
      rw [h1, ih { m with content := m.content ++ t } hrole hs]
      simp [joinAll, String.append_assoc]

/-- Effect of `answer_end` on a list ending in message `m`: clear the
streaming flag of `m` when set and do nothing otherwise. -/
lemma answerEndUpdate_concat (pre : List Message) (m : Message) :
    answerEndUpdate (pre ++ [m]) =
      if m.streaming then pre ++ [{ m with streaming := false }]
      else pre ++ [m] := by
  simp only [answerEndUpdate, List.getLast?_concat]
  by_cases hs : m.streaming <;> simp [hs, List.dropLast_concat]

/-- The `answer_end` update never changes the content of any message. -/
lemma answerEndUpdate_map_content (l : List Message) :
    (answerEndUpdate l).map Message.content = l.map Message.content := by
  induction l using List.reverseRecOn with
  | nil => rfl
  | append_singleton pre m ih =>
      rw [answerEndUpdate_concat]
      by_cases hs : m.streaming <;> simp [hs]

/-- The `answer_end` update leaves the message list unchanged when no streaming
message exists. -/
lemma answerEndUpdate_no_streaming (l : List Message)
    (h : ∀ m ∈ l, m.streaming = false) :
    answerEndUpdate l = l := by
  cases hl : l.getLast? with
  | none => simp [answerEndUpdate, hl]
  | some lastMsg =>
      have hmem : lastMsg ∈ l := by
        obtain ⟨hne, rfl⟩ := List.mem_getLast?_eq_getLast hl
        exact List.getLast_mem hne
      simp [answerEndUpdate, hl, h lastMsg hmem]

/-- One-step unfolding of `splitCB` on a cons cell. -/
lemma splitCB_cons (c : Char) (cs : List Char) :
    splitCB (c :: cs) =
      if c = '\n' then ([] :: (splitCB cs).1, (splitCB cs).2)
      else
        match (splitCB cs).1 with
        | [] => ([], c :: (splitCB cs).2)
        | l :: ls => ((c :: l) :: ls, (splitCB cs).2) := rfl

/-- Splitting a concatenation: the first part's complete lines come out
unchanged, and its trailing buffer is prepended to the second part before
splitting it. -/
lemma splitCB_append (a b : List Char) :
    splitCB (a ++ b) =
      ((splitCB a).1 ++ (splitCB ((splitCB a).2 ++ b)).1,
        (splitCB ((splitCB a).2 ++ b)).2) := by
  induction a with
  | nil => simp [splitCB]
  | cons c cs ih =>
      by_cases hc : c = '\n'
      · subst hc
        rw [List.cons_append, splitCB_cons, if_pos rfl, splitCB_cons, if_pos rfl]
        rw [ih]
        simp
      · rw [List.cons_append, splitCB_cons, if_neg hc, splitCB_cons, if_neg hc]
        rw [ih]
        rcases h1 : (splitCB cs).1 with _ | ⟨l, ls⟩ <;>
          rcases h2 : (splitCB ((splitCB cs).2 ++ b)).1 with _ | ⟨l2, ls2⟩ <;>
            simp only [h1, h2, List.nil_append, List.cons_append] <;>
              simp [splitCB_cons, hc, h2]

/-- The trailing buffer produced by `splitCB` contains no complete line:
splitting it again yields no lines and the same buffer. -/
lemma splitCB_snd (l : List Char) :
    splitCB (splitCB l).2 = ([], (splitCB l).2) := by
  induction l with
  | nil => rfl
  | cons c cs ih =>
      by_cases hc : c = '\n'
      · subst hc
        rw [splitCB_cons, if_pos rfl]
        exact ih
      · rw [splitCB_cons, if_neg hc]
        rcases h1 : (splitCB cs).1 with _ | ⟨l0, ls⟩
        · simp only [h1]
          rw [splitCB_cons, if_neg hc, ih]
        · simp only [h1]
          exact ih

/-- When the input ends in a newline, splitting leaves an empty buffer
and at least one complete line. -/
lemma splitCB_ends_newline (l : List Char) (h : l.getLast? = some '\n') :
    (splitCB l).2 = [] ∧ (splitCB l).1 ≠ [] := by
  induction l with
  | nil => simp at h
  | cons c cs ih =>
      cases cs with
      | nil =>
          simp at h
          subst h
          refine ⟨rfl, by simp [splitCB_cons]⟩
      | cons d ds =>
          rw [List.getLast?_cons_cons] at h
          obtain ⟨ih1, ih2⟩ := ih h
          by_cases hc : c = '\n'
          · subst hc
            rw [splitCB_cons, if_pos rfl]
            exact ⟨ih1, by simp⟩
          · rw [splitCB_cons, if_neg hc]
            rcases h1 : (splitCB (d :: ds)).1 with _ | ⟨l0, ls⟩
            · exact absurd h1 ih2
            · simp only [h1]
              exact ⟨ih1, by simp⟩

/-- Running the read loop from a state whose buffer holds no complete
line processes exactly the complete lines of the buffer followed by the
concatenated chunks, keeping the trailing partial line. -/
lemma readChunks_foldl (chunks : List (List Char)) (st : ReaderState)
    (hbuf : splitCB st.buffer = ([], st.buffer)) :
    chunks.foldl readChunk st =
      { buffer := (splitCB (st.buffer ++ chunks.flatten)).2
        out := st.out ++ (splitCB (st.buffer ++ chunks.flatten)).1 } := by
  induction chunks generalizing st with
  | nil => simp [hbuf]
  | cons c cs ih =>
      show cs.foldl readChunk (readChunk st c) = _
      rw [ih (readChunk st c) (splitCB_snd (st.buffer ++ c))]
      have happ := splitCB_append (st.buffer ++ c) cs.flatten
      simp only [readChunk, List.flatten_cons]
      rw [← List.append_assoc, happ]
      simp [List.append_assoc]

/-- C9: for a streamed byte sequence ending in a newline, the sequence of
complete lines handed to the dispatcher — and hence every message and
status update folded from it — is the same for every way of splitting the
bytes into read chunks: each complete line is parsed exactly once, in
order, and nothing is left in the buffer. -/
theorem rechunking_invariant (cs1 cs2 : List (List Char))
    (g : List Char → ClientState → ClientState) (s0 : ClientState)
    (hjoin : cs1.flatten = cs2.flatten)
    (hnl : cs1.flatten.getLast? = some '\n') :
    (readChunks cs1).out = (readChunks cs2).out
    ∧ (readChunks cs1).out = (splitCB cs1.flatten).1
    ∧ (readChunks cs1).buffer = []
    ∧ (readChunks cs2).buffer = []
    ∧ (readChunks cs1).out.foldl (fun st l => g l st) s0
        = (readChunks cs2).out.foldl (fun st l => g l st) s0 := by
  have e1 : readChunks cs1 =
      { buffer := (splitCB cs1.flatten).2, out := (splitCB cs1.flatten).1 } := by
    rw [readChunks, readChunks_foldl cs1 ⟨[], []⟩ rfl]
    simp
  have e2 : readChunks cs2 =
      { buffer := (splitCB cs2.flatten).2, out := (splitCB cs2.flatten).1 } := by
    rw [readChunks, readChunks_foldl cs2 ⟨[], []⟩ rfl]
    simp
  obtain ⟨hb, _⟩ := splitCB_ends_newline cs1.flatten hnl
  rw [e1, e2, ← hjoin]
  exact ⟨rfl, rfl, hb, hb, rfl⟩

/-- Witness for C9 at two different chunkings of the same two-line byte
sequence. -/
theorem rechunking_invariant_witness :
    (readChunks [['a', '\n', 'b'], ['\n']]).out
        = (readChunks [['a'], ['\n', 'b', '\n']]).out
    ∧ (readChunks [['a', '\n', 'b'], ['\n']]).out
        = (splitCB ([['a', '\n', 'b'], ['\n']] : List (List Char)).flatten).1
    ∧ (readChunks [['a', '\n', 'b'], ['\n']]).buffer = []
    ∧ (readChunks [['a'], ['\n', 'b', '\n']]).buffer = []
    ∧ (readChunks [['a', '\n', 'b'], ['\n']]).out.foldl
          (fun st l => (fun (x : List Char) (s : ClientState) => s) l st)
          (ClientState.mk [] "" false)
        = (readChunks [['a'], ['\n', 'b', '\n']]).out.foldl
          (fun st l => (fun (x : List Char) (s : ClientState) => s) l st)
          (ClientState.mk [] "" false) :=
  rechunking_invariant [['a', '\n', 'b'], ['\n']] [['a'], ['\n', 'b', '\n']]
    (fun x s => s) (ClientState.mk [] "" false) (by decide) (by decide)

/-- C1: a run of `token` events with contents `ts` followed by
`answer_end`, starting from a state not already ending in a streaming
agent message, appends exactly one new agent message whose final content
is the concatenation of the tokens in event order; `answer_end` itself
changes no message's content and leaves the message list unchanged when
no streaming message exists. -/
theorem token_run_single_message (s : ClientState) (ts : List String)
    (s₂ : ClientState) (hts : ts ≠ [])
    (hlast : lastIsStreamingAgent s.messages = false)
    (hquiet : ∀ m ∈ s₂.messages, m.streaming = false) :
    (processData ⟨"answer_end", "", none, none⟩ (processTokens ts s)).messages
      = s.messages ++
          [{ role := "agent", content := joinAll ts, streaming := false }]
    ∧ (processData ⟨"answer_end", "", none, none⟩ s₂).messages.map
          Message.content
        = s₂.messages.map Message.content
    ∧ (processData ⟨"answer_end", "", none, none⟩ s₂).messages
        = s₂.messages := by
  refine ⟨?_, answerEndUpdate_map_content s₂.messages,
    answerEndUpdate_no_streaming s₂.messages hquiet⟩
  cases ts with
  | nil => exact absurd rfl hts
  | cons t ts' =>
      have hmsgs : (processTokens (t :: ts') s).messages =
          s.messages ++
            [{ role := "agent", content := t ++ joinAll ts',
               streaming := true }] := by
        rw [processTokens_messages]
        show List.foldl _ (tokenUpdate t s.messages) ts' = _
        rw [tokenUpdate_fresh t s.messages hlast]
        exact tokenUpdate_fold_streaming ts' s.messages _ rfl rfl
      show answerEndUpdate (processTokens (t :: ts') s).messages = _
      rw [hmsgs, answerEndUpdate_concat]
      simp [joinAll]

/-- Witness for C1 at a concrete two-token run after a user message. -/
theorem token_run_single_message_witness :
    (processData ⟨"answer_end", "", none, none⟩
        (processTokens ["a", "b"]
          ⟨[⟨"user", "q", false, none, none⟩], "", true⟩)).messages
      = [⟨"user", "q", false, none, none⟩] ++
          [{ role := "agent", content := joinAll ["a", "b"],
             streaming := false }]
    ∧ (processData ⟨"answer_end", "", none, none⟩
          (ClientState.mk [] "" false)).messages.map Message.content
        = (ClientState.mk [] "" false).messages.map Message.content
    ∧ (processData ⟨"answer_end", "", none, none⟩
          (ClientState.mk [] "" false)).messages
        = (ClientState.mk [] "" false).messages :=
  token_run_single_message ⟨[⟨"user", "q", false, none, none⟩], "", true⟩
    ["a", "b"] (ClientState.mk [] "" false)
    (by decide) (by decide) (by decide)

/-- C2: the stream dispatch acts on exactly the six protocol event types:
`status` replaces only the status text, `log` changes no state, `token`
and `answer_end` perform the incremental-message updates and clear the
status, `answer` appends one agent message carrying content and chart
data, `error` appends one agent error message, and any other type changes
no state at all. -/
theorem stream_dispatch_six_types (s : ClientState) (d : StreamData)
    (c : String) (cd : Option (List ChartPoint)) (ct : Option String)
    (hother : d.type ∉
      (["status", "log", "token", "answer", "answer_end", "error"] :
        List String)) :
    processData ⟨"status", c, cd, ct⟩ s = { s with status := c }
    ∧ processData ⟨"log", c, cd, ct⟩ s = s
    ∧ (processData ⟨"token", c, cd, ct⟩ s).messages = tokenUpdate c s.messages
    ∧ (processData ⟨"token", c, cd, ct⟩ s).status = ""
    ∧ (processData ⟨"answer_end", c, cd, ct⟩ s).messages
        = answerEndUpdate s.messages
    ∧ (processData ⟨"answer_end", c, cd, ct⟩ s).status = ""
    ∧ processData ⟨"answer", c, cd, ct⟩ s =
        { s with
          messages := s.messages ++
            [{ role := "agent", content := c, chart_data := cd }]
          status := "" }
    ∧ processData ⟨"error", c, cd, ct⟩ s =
        { s with
          messages := s.messages ++
            [{ role := "agent", content := "Error: " ++ c }]
          status := "" }
    ∧ processData d s = s := by
  refine ⟨rfl, rfl, rfl, rfl, rfl, rfl, rfl, rfl, ?_⟩
  simp only [List.mem_cons, List.mem_singleton, not_or] at hother
  obtain ⟨h1, h2, h3, h4, h5, h6⟩ := hother
  simp [processData, h1, h2, h3, h4, h5, h6]

/-- Witness for C2 at a concrete state and an unknown event type. -/
theorem stream_dispatch_six_types_witness :
    processData ⟨"status", "hi", none, none⟩ ⟨[], "", false⟩ =
        { ClientState.mk [] "" false with status := "hi" }
    ∧ processData ⟨"log", "hi", none, none⟩ ⟨[], "", false⟩ = ⟨[], "", false⟩
    ∧ (processData ⟨"token", "hi", none, none⟩ ⟨[], "", false⟩).messages
        = tokenUpdate "hi" (ClientState.mk [] "" false).messages
    ∧ (processData ⟨"token", "hi", none, none⟩ ⟨[], "", false⟩).status = ""
    ∧ (processData ⟨"answer_end", "hi", none, none⟩ ⟨[], "", false⟩).messages
        = answerEndUpdate (ClientState.mk [] "" false).messages
    ∧ (processData ⟨"answer_end", "hi", none, none⟩ ⟨[], "", false⟩).status = ""
    ∧ processData ⟨"answer", "hi", none, none⟩ ⟨[], "", false⟩ =
        { ClientState.mk [] "" false with
          messages := (ClientState.mk [] "" false).messages ++
            [{ role := "agent", content := "hi", chart_data := none }]
          status := "" }
    ∧ processData ⟨"error", "hi", none, none⟩ ⟨[], "", false⟩ =
        { ClientState.mk [] "" false with
          messages := (ClientState.mk [] "" false).messages ++
            [{ role := "agent", content := "Error: " ++ "hi" }]
          status := "" }
    ∧ processData ⟨"bogus", "x", none, none⟩ ⟨[], "", false⟩ = ⟨[], "", false⟩ :=
  stream_dispatch_six_types ⟨[], "", false⟩ ⟨"bogus", "x", none, none⟩
    "hi" none none (by decide)

/-- C8 counterexample: in `ChatPage` a message whose `chart_data` is
present and non-empty renders its chart even though its `chart_type` is
neither `scatter_anomaly` nor `forecast`, so chart rendering is not
selected by `chart_type` alone across the client. -/
theorem chart_dispatch_counterexample :
    (Message.mk "agent" "done" false (some [⟨0, 1⟩]) (some "pie")).chart_data.isSome
        = true
    ∧ (Message.mk "agent" "done" false (some [⟨0, 1⟩]) (some "pie")).chart_type
        ≠ some "scatter_anomaly"
    ∧ (Message.mk "agent" "done" false (some [⟨0, 1⟩]) (some "pie")).chart_type
        ≠ some "forecast"
    ∧ chatPageRendersChart
        (Message.mk "agent" "done" false (some [⟨0, 1⟩]) (some "pie")) = true := by
  refine ⟨rfl, ?_, ?_, rfl⟩ <;> decide

/-- C8 (amended): in the `AgentChat` component the chart is selected by
`chart_type` from exactly the two values — the anomaly scatter chart
renders iff `chart_type` is `scatter_anomaly` and the chart payload is
present, the forecast chart renders iff `chart_type` is `forecast` and
the payload is present, never both at once, and any other `chart_type`
renders neither; in `ChatPage` the inline chart is rendered iff
`chart_data` is present and non-empty, regardless of `chart_type`. -/
theorem chart_dispatch_amended (m : Message) :
    (agentChatRendersAnomalyChart m = true ↔
        m.chart_data.isSome = true ∧ m.chart_type = some "scatter_anomaly")
    ∧ (agentChatRendersForecastChart m = true ↔
        m.chart_data.isSome = true ∧ m.chart_type = some "forecast")
    ∧ ¬(agentChatRendersAnomalyChart m = true
        ∧ agentChatRendersForecastChart m = true)
    ∧ (m.chart_type = some "scatter_anomaly" ∨ m.chart_type = some "forecast"
        ∨ (agentChatRendersAnomalyChart m = false
            ∧ agentChatRendersForecastChart m = false))
    ∧ (chatPageRendersChart m = true ↔ m.chart_data.getD [] ≠ []) := by
  refine ⟨?_, ?_, ?_, ?_, ?_⟩
  · simp [agentChatRendersAnomalyChart]
  · simp [agentChatRendersForecastChart]
  · rintro ⟨ha, hb⟩
    simp [agentChatRendersAnomalyChart] at ha
    simp [agentChatRendersForecastChart] at hb
    rw [ha.2] at hb
    exact absurd hb.2 (by decide)
  · by_cases ha : m.chart_type = some "scatter_anomaly"
    · exact Or.inl ha
    · by_cases hf : m.chart_type = some "forecast"
      · exact Or.inr (Or.inl hf)
      · exact Or.inr (Or.inr
          ⟨by simp [agentChatRendersAnomalyChart, ha],
            by simp [agentChatRendersForecastChart, hf]⟩)
  · cases hcd : m.chart_data with
    | none => simp [chatPageRendersChart, hcd]
    | some l =>
        simp [chatPageRendersChart, hcd]
        exact List.length_pos

end AgentProject
